import Mathlib

/-! # gmaj: the RPC facade and connection cache of a Chord node (`rpc_api.go`)

A shallow embedding of `rpc_api.go`: the per-node connection cache
(`Node.getNodeClient`) and the ten remote-invocation methods built on it.

* A Go `map[string]*clientConn` is an association list with unique keys,
  wrapped in `Option` (`none` is the nil map).
* External calls (`grpc.Dial`, the generated `gmajpb.NodeClient` stub methods)
  are answered by a `Net` value and recorded, in order, as `Event`s.
* A nil-pointer dereference is the outcome `Outcome.panicked`.
-/

set_option linter.dupNamespace false

namespace gmaj

/-- A Go `error` value, identified by its message. The nil error is `none : Option GoError`. -/
structure GoError where
  msg : String
deriving DecidableEq, Repr

namespace errors

/-- Go `errors.New`. -/
def New (text : String) : GoError := ⟨text⟩

end errors

namespace context

/-- Go `context.Context`, reduced to what `Deadline()` reports: `none` when no deadline is set. -/
structure Context where
  deadline : Option Nat
deriving DecidableEq, Repr

/-- Go `context.Background()`: the empty context; it is never cancelled and has no deadline. -/
def Background : Context := ⟨none⟩

end context

namespace grpc

/-- A `grpc.DialOption`: a value the code only passes on, identified by a handle. -/
structure DialOption where
  id : Nat
deriving DecidableEq, Repr

/-- A `*grpc.ClientConn`: a pointer the code only stores and passes on, identified by a handle. -/
structure ClientConn where
  handle : Nat
deriving DecidableEq, Repr

end grpc

namespace gmajpb

/-- Modelled from the spec: the message `gmajpb.Node` (declared in the generated package
`gmajpb`, not part of this file), "node = identifier + address". -/
structure Node where
  Id : List UInt8
  Addr : String
deriving DecidableEq, Repr

/-- Modelled from the spec: the empty message `gmajpb.MT` sent by the argument-less calls. -/
structure MT where
deriving DecidableEq, Repr

/-- Modelled from the spec: the message `gmajpb.ID`, "identifier = fixed-width bytes". -/
structure ID where
  Id : List UInt8
deriving DecidableEq, Repr

/-- Modelled from the spec: the message `gmajpb.Key`. -/
structure Key where
  Key : String
deriving DecidableEq, Repr

/-- Modelled from the spec: the message `gmajpb.Val`. -/
structure Val where
  Val : String
deriving DecidableEq, Repr

/-- Modelled from the spec: the message `gmajpb.KeyVal`, "key/value = strings". -/
structure KeyVal where
  Key : String
  Val : String
deriving DecidableEq, Repr

/-- Modelled from the spec: the message `gmajpb.TransferMsg`; `ToNode` is a pointer and may be nil. -/
structure TransferMsg where
  FromID : List UInt8
  ToNode : Option Node
deriving DecidableEq, Repr

/-- Modelled from the spec: a non-nil `gmajpb.NodeClient`, the "typed client bound to Session". -/
structure NodeClient where
  cc : grpc.ClientConn
deriving DecidableEq, Repr

/-- Modelled from the spec: `gmajpb.NewNodeClient`, which wraps a session in a typed stub. -/
def NewNodeClient (cc : grpc.ClientConn) : NodeClient := ⟨cc⟩

end gmajpb

/-- The struct `clientConn` (lines 16-19). -/
structure clientConn where
  client : gmajpb.NodeClient
  conn : grpc.ClientConn
deriving DecidableEq, Repr

/-- A Go `map[string]*clientConn` that has been allocated. -/
abbrev ConnMap := AList (fun _ : String => clientConn)

/-- Modelled from the spec: the fields of `Node` (declared outside this file) that
`rpc_api.go` uses: the connection storage (`none` is the nil map) and the per-node dial
options. The lock `connMtx` has no content; whole calls are atomic here, and the lock's
critical sections are the steps of `Conc` below. -/
structure Node where
  clientConns : Option ConnMap
  dialOpts : List grpc.DialOption
deriving DecidableEq

/-- Modelled from the spec: the process-wide `config`, of which only `DialOptions` is used. -/
structure Config where
  DialOptions : List grpc.DialOption
deriving DecidableEq, Repr

/-- Modelled from the spec: the package-level value `mt`, the empty message. -/
def mt : gmajpb.MT := ⟨⟩

/-- A request to a stub: the method called and the message sent (lines 32-144). -/
inductive Call where
  | GetPredecessor (req : gmajpb.MT)
  | GetSuccessor (req : gmajpb.MT)
  | SetPredecessor (req : Option gmajpb.Node)
  | SetSuccessor (req : Option gmajpb.Node)
  | Notify (req : Option gmajpb.Node)
  | ClosestPrecedingFinger (req : gmajpb.ID)
  | FindSuccessor (req : gmajpb.ID)
  | Get (req : gmajpb.Key)
  | Put (req : gmajpb.KeyVal)
  | TransferKeys (req : gmajpb.TransferMsg)
deriving DecidableEq, Repr

/-- What a call does to the outside world, in order: sessions it tries to establish and
requests it hands to a stub (with the context passed along). -/
inductive Event where
  | dial (target : String) (opts : List grpc.DialOption)
  | request (client : gmajpb.NodeClient) (ctx : context.Context) (call : Call)
deriving DecidableEq, Repr

/-- Whether an event is a request to a stub. -/
def Event.isRequest : Event → Bool
  | .dial _ _ => false
  | .request _ _ _ => true

/-- Whether an event is a `grpc.Dial`. -/
def Event.isDial : Event → Bool
  | .dial _ _ => true
  | .request _ _ _ => false

/-- The outside world as one call sees it: the answer of `grpc.Dial` and of each method of
a `gmajpb.NodeClient` stub, as the Go pair `(result, error)`. -/
structure Net where
  Dial : String → List grpc.DialOption → grpc.ClientConn × Option GoError
  GetPredecessor : gmajpb.NodeClient → context.Context → gmajpb.MT → Option gmajpb.Node × Option GoError
  GetSuccessor : gmajpb.NodeClient → context.Context → gmajpb.MT → Option gmajpb.Node × Option GoError
  SetPredecessor : gmajpb.NodeClient → context.Context → Option gmajpb.Node → Option gmajpb.MT × Option GoError
  SetSuccessor : gmajpb.NodeClient → context.Context → Option gmajpb.Node → Option gmajpb.MT × Option GoError
  Notify : gmajpb.NodeClient → context.Context → Option gmajpb.Node → Option gmajpb.MT × Option GoError
  ClosestPrecedingFinger : gmajpb.NodeClient → context.Context → gmajpb.ID → Option gmajpb.Node × Option GoError
  FindSuccessor : gmajpb.NodeClient → context.Context → gmajpb.ID → Option gmajpb.Node × Option GoError
  Get : gmajpb.NodeClient → context.Context → gmajpb.Key → Option gmajpb.Val × Option GoError
  Put : gmajpb.NodeClient → context.Context → gmajpb.KeyVal → Option gmajpb.MT × Option GoError
  TransferKeys : gmajpb.NodeClient → context.Context → gmajpb.TransferMsg → Option gmajpb.MT × Option GoError

/-- How a Go call ends: it returns a value, or it panics on a nil dereference. -/
inductive Outcome (α : Type) where
  | returned (v : α)
  | panicked
deriving DecidableEq, Repr

/-- A finished call: how it ended, the node afterwards, and the events it issued in order. -/
structure Exec (α : Type) where
  out : Outcome α
  node : Node
  events : List Event

/-- The expression `node.clientConns[addr]` (line 155): reading a nil map finds nothing. -/
def Node.cached (node : Node) (addr : String) : Option clientConn :=
  match node.clientConns with
  | none => none
  | some m => m.lookup addr

/-- The method `getNodeClient` (lines 149-181). -/
def Node.getNodeClient (config : Config) (net : Net) (node : Node)
    (remoteNode : Option gmajpb.Node) : Exec (Option gmajpb.NodeClient × Option GoError) :=
  match remoteNode with
  | none => ⟨.panicked, node, []⟩
  | some rn =>
    let remoteNodeAddr := rn.Addr
    match node.cached remoteNodeAddr with
    | some cc => ⟨.returned (some cc.client, none), node, []⟩
    | none =>
      let opts := config.DialOptions ++ node.dialOpts
      let (conn, err) := net.Dial remoteNodeAddr opts
      match err with
      | some e => ⟨.returned (none, some e), node, [Event.dial remoteNodeAddr opts]⟩
      | none =>
        let client := gmajpb.NewNodeClient conn
        let cc : clientConn := ⟨client, conn⟩
        match node.clientConns with
        | none =>
          ⟨.returned (none, some (errors.New "must instantiate node before using")), node,
            [Event.dial remoteNodeAddr opts]⟩
        | some m =>
          ⟨.returned (some client, none),
            { node with clientConns := some (m.insert remoteNodeAddr cc) },
            [Event.dial remoteNodeAddr opts]⟩

/-- The method `GetPredecessorRPC` (lines 26-33). -/
def Node.GetPredecessorRPC (config : Config) (net : Net) (node : Node)
    (remoteNode : Option gmajpb.Node) : Exec (Option gmajpb.Node × Option GoError) :=
  let r := node.getNodeClient config net remoteNode
  match r.out with
  | .panicked => ⟨.panicked, r.node, r.events⟩
  | .returned (_, some err) => ⟨.returned (none, some err), r.node, r.events⟩
  | .returned (none, none) => ⟨.panicked, r.node, r.events⟩
  | .returned (some client, none) =>
    ⟨.returned (net.GetPredecessor client context.Background mt), r.node,
      r.events ++ [Event.request client context.Background (Call.GetPredecessor mt)]⟩

/-- The method `GetSuccessorRPC` (lines 36-43). -/
def Node.GetSuccessorRPC (config : Config) (net : Net) (node : Node)
    (remoteNode : Option gmajpb.Node) : Exec (Option gmajpb.Node × Option GoError) :=
  let r := node.getNodeClient config net remoteNode
  match r.out with
  | .panicked => ⟨.panicked, r.node, r.events⟩
  | .returned (_, some err) => ⟨.returned (none, some err), r.node, r.events⟩
  | .returned (none, none) => ⟨.panicked, r.node, r.events⟩
  | .returned (some client, none) =>
    ⟨.returned (net.GetSuccessor client context.Background mt), r.node,
      r.events ++ [Event.request client context.Background (Call.GetSuccessor mt)]⟩

/-- The method `SetPredecessorRPC` (lines 46-54). -/
def Node.SetPredecessorRPC (config : Config) (net : Net) (node : Node)
    (remoteNode : Option gmajpb.Node) (newPred : Option gmajpb.Node) : Exec (Option GoError) :=
  let r := node.getNodeClient config net remoteNode
  match r.out with
  | .panicked => ⟨.panicked, r.node, r.events⟩
  | .returned (_, some err) => ⟨.returned (some err), r.node, r.events⟩
  | .returned (none, none) => ⟨.panicked, r.node, r.events⟩
  | .returned (some client, none) =>
    ⟨.returned (net.SetPredecessor client context.Background newPred).2, r.node,
      r.events ++ [Event.request client context.Background (Call.SetPredecessor newPred)]⟩

/-- The method `SetSuccessorRPC` (lines 57-65). -/
def Node.SetSuccessorRPC (config : Config) (net : Net) (node : Node)
    (remoteNode : Option gmajpb.Node) (newSucc : Option gmajpb.Node) : Exec (Option GoError) :=
  let r := node.getNodeClient config net remoteNode
  match r.out with
  | .panicked => ⟨.panicked, r.node, r.events⟩
  | .returned (_, some err) => ⟨.returned (some err), r.node, r.events⟩
  | .returned (none, none) => ⟨.panicked, r.node, r.events⟩
  | .returned (some client, none) =>
    ⟨.returned (net.SetSuccessor client context.Background newSucc).2, r.node,
      r.events ++ [Event.request client context.Background (Call.SetSuccessor newSucc)]⟩

/-- The method `NotifyRPC` (lines 68-76). -/
def Node.NotifyRPC (config : Config) (net : Net) (node : Node)
    (remoteNode : Option gmajpb.Node) (pred : Option gmajpb.Node) : Exec (Option GoError) :=
  let r := node.getNodeClient config net remoteNode
  match r.out with
  | .panicked => ⟨.panicked, r.node, r.events⟩
  | .returned (_, some err) => ⟨.returned (some err), r.node, r.events⟩
  | .returned (none, none) => ⟨.panicked, r.node, r.events⟩
  | .returned (some client, none) =>
    ⟨.returned (net.Notify client context.Background pred).2, r.node,
      r.events ++ [Event.request client context.Background (Call.Notify pred)]⟩

/-- The method `ClosestPrecedingFingerRPC` (lines 80-89). -/
def Node.ClosestPrecedingFingerRPC (config : Config) (net : Net) (node : Node)
    (remoteNode : Option gmajpb.Node) (id : List UInt8) : Exec (Option gmajpb.Node × Option GoError) :=
  let r := node.getNodeClient config net remoteNode
  match r.out with
  | .panicked => ⟨.panicked, r.node, r.events⟩
  | .returned (_, some err) => ⟨.returned (none, some err), r.node, r.events⟩
  | .returned (none, none) => ⟨.panicked, r.node, r.events⟩
  | .returned (some client, none) =>
    ⟨.returned (net.ClosestPrecedingFinger client context.Background ⟨id⟩), r.node,
      r.events ++ [Event.request client context.Background (Call.ClosestPrecedingFinger ⟨id⟩)]⟩

/-- The method `FindSuccessorRPC` (lines 92-101). -/
def Node.FindSuccessorRPC (config : Config) (net : Net) (node : Node)
    (remoteNode : Option gmajpb.Node) (id : List UInt8) : Exec (Option gmajpb.Node × Option GoError) :=
  let r := node.getNodeClient config net remoteNode
  match r.out with
  | .panicked => ⟨.panicked, r.node, r.events⟩
  | .returned (_, some err) => ⟨.returned (none, some err), r.node, r.events⟩
  | .returned (none, none) => ⟨.panicked, r.node, r.events⟩
  | .returned (some client, none) =>
    ⟨.returned (net.FindSuccessor client context.Background ⟨id⟩), r.node,
      r.events ++ [Event.request client context.Background (Call.FindSuccessor ⟨id⟩)]⟩

/-- The method `GetRPC` (lines 108-120); line 119 dereferences `val`. -/
def Node.GetRPC (config : Config) (net : Net) (node : Node)
    (remoteNode : Option gmajpb.Node) (key : String) : Exec (String × Option GoError) :=
  let r := node.getNodeClient config net remoteNode
  match r.out with
  | .panicked => ⟨.panicked, r.node, r.events⟩
  | .returned (_, some err) => ⟨.returned ("", some err), r.node, r.events⟩
  | .returned (none, none) => ⟨.panicked, r.node, r.events⟩
  | .returned (some client, none) =>
    match net.Get client context.Background ⟨key⟩ with
    | (_, some err) => ⟨.returned ("", some err), r.node,
      r.events ++ [Event.request client context.Background (Call.Get ⟨key⟩)]⟩
    | (none, none) => ⟨.panicked, r.node,
      r.events ++ [Event.request client context.Background (Call.Get ⟨key⟩)]⟩
    | (some val, none) => ⟨.returned (val.Val, none), r.node,
      r.events ++ [Event.request client context.Background (Call.Get ⟨key⟩)]⟩

/-- The method `PutRPC` (lines 123-131). -/
def Node.PutRPC (config : Config) (net : Net) (node : Node)
    (remoteNode : Option gmajpb.Node) (key : String) (val : String) : Exec (Option GoError) :=
  let r := node.getNodeClient config net remoteNode
  match r.out with
  | .panicked => ⟨.panicked, r.node, r.events⟩
  | .returned (_, some err) => ⟨.returned (some err), r.node, r.events⟩
  | .returned (none, none) => ⟨.panicked, r.node, r.events⟩
  | .returned (some client, none) =>
    ⟨.returned (net.Put client context.Background ⟨key, val⟩).2, r.node,
      r.events ++ [Event.request client context.Background (Call.Put ⟨key, val⟩)]⟩

/-- The method `TransferKeysRPC` (lines 136-146). -/
def Node.TransferKeysRPC (config : Config) (net : Net) (node : Node)
    (remoteNode : Option gmajpb.Node)
    (fromID : List UInt8) (toNode : Option gmajpb.Node) : Exec (Option GoError) :=
  let r := node.getNodeClient config net remoteNode
  match r.out with
  | .panicked => ⟨.panicked, r.node, r.events⟩
  | .returned (_, some err) => ⟨.returned (some err), r.node, r.events⟩
  | .returned (none, none) => ⟨.panicked, r.node, r.events⟩
  | .returned (some client, none) =>
    ⟨.returned (net.TransferKeys client context.Background ⟨fromID, toNode⟩).2, r.node,
      r.events ++ [Event.request client context.Background (Call.TransferKeys ⟨fromID, toNode⟩)]⟩

/-- One of the ten facade methods, with the caller's arguments that follow `remoteNode`. -/
inductive Rpc where
  | GetPredecessorRPC
  | GetSuccessorRPC
  | SetPredecessorRPC (newPred : Option gmajpb.Node)
  | SetSuccessorRPC (newSucc : Option gmajpb.Node)
  | NotifyRPC (pred : Option gmajpb.Node)
  | ClosestPrecedingFingerRPC (id : List UInt8)
  | FindSuccessorRPC (id : List UInt8)
  | GetRPC (key : String)
  | PutRPC (key : String) (val : String)
  | TransferKeysRPC (fromID : List UInt8) (toNode : Option gmajpb.Node)
deriving DecidableEq, Repr

/-- What a facade method hands back: `(*gmajpb.Node, error)`, `error`, or `(string, error)`. -/
inductive Reply where
  | node (resp : Option gmajpb.Node) (err : Option GoError)
  | ack (err : Option GoError)
  | value (val : String) (err : Option GoError)
deriving DecidableEq, Repr

/-- The error component of what a facade method returns. -/
def Reply.err : Reply → Option GoError
  | .node _ e => e
  | .ack e => e
  | .value _ e => e

/-- Whether the result component is the zero value: a nil node, nothing, or the empty string. -/
def Reply.isZero : Reply → Bool
  | .node resp _ => resp.isNone
  | .ack _ => true
  | .value val _ => val == ""

/-- Relabel the value a call returned. -/
def Exec.map {α β : Type} (f : α → β) (r : Exec α) : Exec β :=
  ⟨match r.out with
    | .returned v => .returned (f v)
    | .panicked => .panicked,
   r.node, r.events⟩

/-- Run the facade method named by `rpc` on `remoteNode`. -/
def Node.run (config : Config) (net : Net) (node : Node) (remoteNode : Option gmajpb.Node) :
    Rpc → Exec Reply
  | .GetPredecessorRPC =>
    (node.GetPredecessorRPC config net remoteNode).map (fun p => .node p.1 p.2)
  | .GetSuccessorRPC =>
    (node.GetSuccessorRPC config net remoteNode).map (fun p => .node p.1 p.2)
  | .SetPredecessorRPC newPred =>
    (node.SetPredecessorRPC config net remoteNode newPred).map .ack
  | .SetSuccessorRPC newSucc =>
    (node.SetSuccessorRPC config net remoteNode newSucc).map .ack
  | .NotifyRPC pred =>
    (node.NotifyRPC config net remoteNode pred).map .ack
  | .ClosestPrecedingFingerRPC id =>
    (node.ClosestPrecedingFingerRPC config net remoteNode id).map (fun p => .node p.1 p.2)
  | .FindSuccessorRPC id =>
    (node.FindSuccessorRPC config net remoteNode id).map (fun p => .node p.1 p.2)
  | .GetRPC key =>
    (node.GetRPC config net remoteNode key).map (fun p => .value p.1 p.2)
  | .PutRPC key val =>
    (node.PutRPC config net remoteNode key val).map .ack
  | .TransferKeysRPC fromID toNode =>
    (node.TransferKeysRPC config net remoteNode fromID toNode).map .ack

/-- The request the spec expects of a facade method: the stub method of the same name,
carrying exactly the caller's arguments. -/
def Rpc.sameNameCall : Rpc → Call
  | .GetPredecessorRPC => .GetPredecessor mt
  | .GetSuccessorRPC => .GetSuccessor mt
  | .SetPredecessorRPC newPred => .SetPredecessor newPred
  | .SetSuccessorRPC newSucc => .SetSuccessor newSucc
  | .NotifyRPC pred => .Notify pred
  | .ClosestPrecedingFingerRPC id => .ClosestPrecedingFinger { Id := id }
  | .FindSuccessorRPC id => .FindSuccessor { Id := id }
  | .GetRPC key => .Get { Key := key }
  | .PutRPC key val => .Put { Key := key, Val := val }
  | .TransferKeysRPC fromID toNode => .TransferKeys { FromID := fromID, ToNode := toNode }

/-- The error of line 175. -/
def errUninitialized : GoError := errors.New "must instantiate node before using"

/-! ## Sample values -/

/-- A stub bound to session `n`. -/
def sampleClient (n : Nat) : gmajpb.NodeClient := gmajpb.NewNodeClient ⟨n⟩

/-- A cache entry for session `n`. -/
def sampleEntry (n : Nat) : clientConn := ⟨sampleClient n, ⟨n⟩⟩

/-- A remote node reference with the given address. -/
def sampleRemote (addr : String) : gmajpb.Node := ⟨[1, 2], addr⟩

/-- A network on which `grpc.Dial` succeeds with session 7 unless the target is
`"down:1"`, and whose stubs answer with fixed values. -/
def sampleNet : Net where
  Dial := fun target _ =>
    if target = "down:1" then (⟨0⟩, some ⟨"connection refused"⟩) else (⟨7⟩, none)
  GetPredecessor := fun _ _ _ => (some ⟨[9], "p:1"⟩, none)
  GetSuccessor := fun _ _ _ => (some ⟨[8], "s:1"⟩, none)
  SetPredecessor := fun _ _ _ => (some ⟨⟩, none)
  SetSuccessor := fun _ _ _ => (some ⟨⟩, none)
  Notify := fun _ _ _ => (some ⟨⟩, none)
  ClosestPrecedingFinger := fun _ _ _ => (some ⟨[7], "f:1"⟩, none)
  FindSuccessor := fun _ _ _ => (some ⟨[6], "o:1"⟩, none)
  Get := fun _ _ k => if k.Key = "k" then (some ⟨"v"⟩, none) else (none, some ⟨"key not found"⟩)
  Put := fun _ _ _ => (some ⟨⟩, none)
  TransferKeys := fun _ _ _ => (some ⟨⟩, none)

/-- A configuration with two process-wide dial options. -/
def sampleConfig : Config := ⟨[⟨1⟩, ⟨2⟩]⟩

/-- An initialized node that already holds a session to `"a:1"`. -/
def sampleNode : Node := ⟨some (AList.insert "a:1" (sampleEntry 3) ∅), [⟨5⟩]⟩

/-- An initialized node that holds sessions to `"a:1"` and to `"c:1"`. -/
def twoEntryNode : Node :=
  ⟨some (AList.insert "a:1" (sampleEntry 3) (AList.insert "c:1" (sampleEntry 4) ∅)), [⟨5⟩]⟩

/-- A node whose connection storage was never allocated. -/
def bareNode : Node := ⟨none, [⟨5⟩]⟩

/-! ## Concurrent calls of `getNodeClient`

`getNodeClient` holds `connMtx` twice: shared for the lookup (lines 154-156), exclusive
for the nil check and the insertion (lines 172-178); `grpc.Dial` runs between the two with
no lock held. A call is therefore three atomic steps, and concurrent calls interleave at
these steps. -/

/-- Where one call of `getNodeClient` stands. -/
inductive Pc where
  /-- Nothing done yet (before line 154). -/
  | start
  /-- The lookup found nothing (after line 159). -/
  | missed
  /-- The session is established and wrapped (after line 171). -/
  | dialed (conn : grpc.ClientConn)
  /-- The call has returned. -/
  | done (ret : Option gmajpb.NodeClient × Option GoError)
deriving DecidableEq, Repr

/-- How far a call has got: the number of steps behind it, 3 once it has returned. -/
def Pc.rank : Pc → Nat
  | .start => 0
  | .missed => 1
  | .dialed _ => 2
  | .done _ => 3

namespace Conc

/-- The node shared by the callers, where each caller stands, and the caller that last
executed the insertion of line 177 (a ghost field, read by no step). -/
structure State where
  node : Node
  pcs : List Pc
  lastInsert : Option Nat

/-- Callers `0 .. n-1` about to call `getNodeClient` on `node`. -/
def init (node : Node) (n : Nat) : State := ⟨node, List.replicate n .start, none⟩

/-- One atomic step of caller `t`, all callers resolving the address `addr`; `dial t` is
what `grpc.Dial` answers to caller `t`. A caller that has returned, or that does not
exist, does nothing. -/
def step (dial : Nat → grpc.ClientConn × Option GoError) (addr : String) (s : State)
    (t : Nat) : State :=
  match s.pcs[t]? with
  | none => s
  | some .start =>
    match s.node.cached addr with
    | some cc => { s with pcs := s.pcs.set t (.done (some cc.client, none)) }
    | none => { s with pcs := s.pcs.set t .missed }
  | some .missed =>
    match dial t with
    | (_, some e) => { s with pcs := s.pcs.set t (.done (none, some e)) }
    | (conn, none) => { s with pcs := s.pcs.set t (.dialed conn) }
  | some (.dialed conn) =>
    let client := gmajpb.NewNodeClient conn
    match s.node.clientConns with
    | none =>
      let err := errors.New "must instantiate node before using"
      { s with pcs := s.pcs.set t (.done (none, some err)) }
    | some m =>
      { node := { s.node with clientConns := some (m.insert addr ⟨client, conn⟩) },
        pcs := s.pcs.set t (.done (some client, none)),
        lastInsert := some t }
  | some (.done _) => s

/-- Run the callers in the order a schedule names them, one step per occurrence. -/
def run (dial : Nat → grpc.ClientConn × Option GoError) (addr : String)
    (sched : List Nat) (s : State) : State :=
  sched.foldl (step dial addr) s

/-- What holds of caller `t` standing at `pc` when every dial succeeds: if it has dialled
it holds the session its dial gave; if it has returned it holds a stub and a nil error,
and some caller has inserted before (`last` is the last caller that inserted). -/
def PcOk (dial : Nat → grpc.ClientConn × Option GoError) (last : Option Nat) (t : Nat) :
    Pc → Prop
  | .start => True
  | .missed => True
  | .dialed conn => conn = (dial t).1
  | .done ret => (∃ c, ret = (some c, none)) ∧ last.isSome = true

/-- What holds of every state reached from `init node n` when the cache of `node` was the
allocated map `m` with no entry for `addr` and every dial succeeds: the cache is still
allocated and differs from `m` at most at `addr`, where it holds the session of the last
inserter (nothing before the first insertion), and every caller is as `PcOk` says. -/
def Inv (dial : Nat → grpc.ClientConn × Option GoError) (addr : String) (m : ConnMap)
    (n : Nat) (s : State) : Prop :=
  s.pcs.length = n ∧
  (∃ m', s.node.clientConns = some m' ∧
    (∀ a, a ≠ addr → m'.lookup a = m.lookup a) ∧
    m'.lookup addr
      = s.lastInsert.map (fun t => ⟨gmajpb.NewNodeClient (dial t).1, (dial t).1⟩)) ∧
  (∀ t, s.lastInsert = some t → t < n) ∧
  (∀ (t : Nat) (pc : Pc), s.pcs[t]? = some pc → PcOk dial s.lastInsert t pc)

end Conc

/-! ## The connection cache -/

/-- C1: on a cache hit (the allocated map `clientConns` has an entry for the address of
the remote node, whatever its Id), `getNodeClient` returns exactly the client stored in
that entry with a nil error, issues no event (so it does not dial) and leaves the node,
`clientConns` included, unchanged. -/
theorem getNodeClient_cache_hit (config : Config) (net : Net) (node : Node)
    (remoteNode : gmajpb.Node) (m : ConnMap) (cc : clientConn)
    (alloc : node.clientConns = some m)
    (hit : m.lookup remoteNode.Addr = some cc) :
    node.getNodeClient config net (some remoteNode)
        = ⟨.returned (some cc.client, none), node, []⟩ ∧
      (node.getNodeClient config net (some remoteNode)).node.clientConns = some m ∧
      (node.getNodeClient config net (some remoteNode)).events.filter Event.isDial = [] := by
  have hc : node.cached remoteNode.Addr = some cc := by
    simp only [Node.cached, alloc]
    exact hit
  have h : node.getNodeClient config net (some remoteNode)
      = ⟨.returned (some cc.client, none), node, []⟩ := by
    simp [Node.getNodeClient, hc]
  rw [h]
  exact ⟨rfl, alloc, rfl⟩

theorem getNodeClient_cache_hit_witness :
    twoEntryNode.getNodeClient sampleConfig sampleNet (some ⟨[9, 9], "c:1"⟩)
        = ⟨.returned (some (sampleEntry 4).client, none), twoEntryNode, []⟩ ∧
      (twoEntryNode.getNodeClient sampleConfig sampleNet (some ⟨[9, 9], "c:1"⟩)).node.clientConns
        = some (AList.insert "a:1" (sampleEntry 3) (AList.insert "c:1" (sampleEntry 4) ∅)) ∧
      (twoEntryNode.getNodeClient sampleConfig sampleNet
        (some ⟨[9, 9], "c:1"⟩)).events.filter Event.isDial = [] :=
  getNodeClient_cache_hit sampleConfig sampleNet twoEntryNode ⟨[9, 9], "c:1"⟩
    (AList.insert "a:1" (sampleEntry 3) (AList.insert "c:1" (sampleEntry 4) ∅))
    (sampleEntry 4) rfl (by decide)

/-- C2: on a cache miss of an allocated cache, when `grpc.Dial` succeeds with session
`c`, `getNodeClient` returns the stub built from `c` with a nil error, and the cache
afterwards is the previous one with exactly one added entry, `Addr -> (stub of c, c)`:
the entries of every other address are unchanged. -/
theorem getNodeClient_miss_inserts (config : Config) (net : Net) (node : Node)
    (remoteNode : gmajpb.Node) (m : ConnMap) (c : grpc.ClientConn)
    (alloc : node.clientConns = some m)
    (miss : m.lookup remoteNode.Addr = none)
    (dialOk : net.Dial remoteNode.Addr (config.DialOptions ++ node.dialOpts) = (c, none)) :
    (node.getNodeClient config net (some remoteNode)).out
        = .returned (some (gmajpb.NewNodeClient c), none) ∧
      (node.getNodeClient config net (some remoteNode)).node
        = { node with
            clientConns := some (m.insert remoteNode.Addr ⟨gmajpb.NewNodeClient c, c⟩) } ∧
      (m.insert remoteNode.Addr ⟨gmajpb.NewNodeClient c, c⟩).entries
        = ⟨remoteNode.Addr, ⟨gmajpb.NewNodeClient c, c⟩⟩ :: m.entries ∧
      (m.insert remoteNode.Addr ⟨gmajpb.NewNodeClient c, c⟩).lookup remoteNode.Addr
        = some ⟨gmajpb.NewNodeClient c, c⟩ ∧
      ∀ addr, addr ≠ remoteNode.Addr →
        (m.insert remoteNode.Addr ⟨gmajpb.NewNodeClient c, c⟩).lookup addr = m.lookup addr := by
  have hc : node.cached remoteNode.Addr = none := by simp [Node.cached, alloc, miss]
  refine ⟨?_, ?_, ?_, ?_, ?_⟩
  · simp [Node.getNodeClient, hc, dialOk, alloc]
  · simp [Node.getNodeClient, hc, dialOk, alloc]
  · exact AList.insert_entries_of_neg (AList.lookup_eq_none.mp miss)
  · exact AList.lookup_insert m
  · intro addr hne
    exact AList.lookup_insert_ne hne

theorem getNodeClient_miss_inserts_witness :
    (sampleNode.getNodeClient sampleConfig sampleNet (some (sampleRemote "b:1"))).out
        = .returned (some (gmajpb.NewNodeClient ⟨7⟩), none) ∧
      (sampleNode.getNodeClient sampleConfig sampleNet (some (sampleRemote "b:1"))).node
        = { sampleNode with
            clientConns := some ((AList.insert "a:1" (sampleEntry 3) ∅ : ConnMap).insert
              (sampleRemote "b:1").Addr ⟨gmajpb.NewNodeClient ⟨7⟩, ⟨7⟩⟩) } ∧
      ((AList.insert "a:1" (sampleEntry 3) ∅ : ConnMap).insert
          (sampleRemote "b:1").Addr ⟨gmajpb.NewNodeClient ⟨7⟩, ⟨7⟩⟩).entries
        = ⟨(sampleRemote "b:1").Addr, ⟨gmajpb.NewNodeClient ⟨7⟩, ⟨7⟩⟩⟩
            :: (AList.insert "a:1" (sampleEntry 3) ∅ : ConnMap).entries ∧
      ((AList.insert "a:1" (sampleEntry 3) ∅ : ConnMap).insert
          (sampleRemote "b:1").Addr ⟨gmajpb.NewNodeClient ⟨7⟩, ⟨7⟩⟩).lookup
            (sampleRemote "b:1").Addr
        = some ⟨gmajpb.NewNodeClient ⟨7⟩, ⟨7⟩⟩ ∧
      ∀ addr, addr ≠ (sampleRemote "b:1").Addr →
        ((AList.insert "a:1" (sampleEntry 3) ∅ : ConnMap).insert
          (sampleRemote "b:1").Addr ⟨gmajpb.NewNodeClient ⟨7⟩, ⟨7⟩⟩).lookup addr
          = (AList.insert "a:1" (sampleEntry 3) ∅ : ConnMap).lookup addr :=
  getNodeClient_miss_inserts sampleConfig sampleNet sampleNode (sampleRemote "b:1")
    (AList.insert "a:1" (sampleEntry 3) ∅) ⟨7⟩ rfl (by decide) (by decide)

/-- C3: when the address has no cache entry (the cache being allocated or not) and
`grpc.Dial` fails with error `e`, `getNodeClient` returns no stub together with exactly
`e`, and the node, its cache included, is left exactly as it was. -/
theorem getNodeClient_dial_failure (config : Config) (net : Net) (node : Node)
    (remoteNode : gmajpb.Node) (c : grpc.ClientConn) (e : GoError)
    (miss : node.cached remoteNode.Addr = none)
    (dialErr : net.Dial remoteNode.Addr (config.DialOptions ++ node.dialOpts) = (c, some e)) :
    (node.getNodeClient config net (some remoteNode)).out = .returned (none, some e) ∧
      (node.getNodeClient config net (some remoteNode)).node = node ∧
      (node.getNodeClient config net (some remoteNode)).node.cached remoteNode.Addr = none := by
  simp [Node.getNodeClient, miss, dialErr]

theorem getNodeClient_dial_failure_witness :
    (sampleNode.getNodeClient sampleConfig sampleNet (some (sampleRemote "down:1"))).out
        = .returned (none, some ⟨"connection refused"⟩) ∧
      (sampleNode.getNodeClient sampleConfig sampleNet (some (sampleRemote "down:1"))).node
        = sampleNode ∧
      (sampleNode.getNodeClient sampleConfig sampleNet
        (some (sampleRemote "down:1"))).node.cached (sampleRemote "down:1").Addr = none :=
  getNodeClient_dial_failure sampleConfig sampleNet sampleNode (sampleRemote "down:1")
    ⟨0⟩ ⟨"connection refused"⟩ (by decide) (by decide)

/-! ## Helper lemmas on the facade -/

theorem run_node (config : Config) (net : Net) (node : Node) (remoteNode : Option gmajpb.Node)
    (rpc : Rpc) :
    (node.run config net remoteNode rpc).node
      = (node.getNodeClient config net remoteNode).node := by
  cases rpc <;>
    simp only [Node.run, Exec.map, Node.GetPredecessorRPC, Node.GetSuccessorRPC,
      Node.SetPredecessorRPC, Node.SetSuccessorRPC, Node.NotifyRPC,
      Node.ClosestPrecedingFingerRPC, Node.FindSuccessorRPC, Node.GetRPC, Node.PutRPC,
      Node.TransferKeysRPC] <;>
    repeat (first | rfl | split)

theorem getNodeClient_node_cases (config : Config) (net : Net) (node : Node)
    (remoteNode : Option gmajpb.Node) (m : ConnMap) (alloc : node.clientConns = some m) :
    (node.getNodeClient config net remoteNode).node = node ∨
      ∃ rn c, remoteNode = some rn ∧ m.lookup rn.Addr = none ∧
        (node.getNodeClient config net remoteNode).node
          = { node with
              clientConns := some (m.insert rn.Addr ⟨gmajpb.NewNodeClient c, c⟩) } := by
  cases remoteNode with
  | none =>
    left
    simp [Node.getNodeClient]
  | some rn =>
    cases hc : node.cached rn.Addr with
    | some cc0 =>
      left
      simp [Node.getNodeClient, hc]
    | none =>
      rcases hd : net.Dial rn.Addr (config.DialOptions ++ node.dialOpts) with ⟨conn, _ | e⟩
      · right
        refine ⟨rn, conn, rfl, ?_, ?_⟩
        · simpa [Node.cached, alloc] using hc
        · simp [Node.getNodeClient, hc, hd, alloc]
      · left
        simp [Node.getNodeClient, hc, hd]

theorem Conc.step_node_cases (dial : Nat → grpc.ClientConn × Option GoError)
    (target : String) (s : Conc.State) (t : Nat) (m : ConnMap)
    (alloc : s.node.clientConns = some m) :
    (Conc.step dial target s t).node = s.node ∨
      ∃ conn, s.pcs[t]? = some (.dialed conn) ∧
        (Conc.step dial target s t).node
          = { s.node with
              clientConns := some (m.insert target ⟨gmajpb.NewNodeClient conn, conn⟩) } := by
  cases hpc : s.pcs[t]? with
  | none =>
    left
    simp [Conc.step, hpc]
  | some pc =>
    cases pc with
    | start =>
      left
      simp only [Conc.step, hpc]
      split <;> rfl
    | missed =>
      left
      simp only [Conc.step, hpc]
      split <;> rfl
    | dialed conn =>
      right
      exact ⟨conn, rfl, by simp [Conc.step, hpc, alloc]⟩
    | done ret =>
      left
      simp [Conc.step, hpc]

theorem lookup_of_entries_cons (m m' : ConnMap) (key addr : String) (v cc : clientConn)
    (hnew : m.lookup key = none) (had : m.lookup addr = some cc)
    (hent : m'.entries = ⟨key, v⟩ :: m.entries) :
    m'.lookup addr = some cc := by
  have hm' : m' = m.insert key v := by
    apply AList.ext
    rw [hent, AList.insert_entries_of_neg (AList.lookup_eq_none.mp hnew)]
  have hne : addr ≠ key := by
    rintro rfl
    rw [had] at hnew
    exact Option.noConfusion hnew
  rw [hm', AList.lookup_insert_ne hne]
  exact had

theorem count_key_of_lookup (m : ConnMap) (addr : String) (cc : clientConn)
    (h : m.lookup addr = some cc) : m.keys.count addr = 1 := by
  apply List.count_eq_one_of_mem m.keys_nodup
  rw [← AList.mem_keys, ← AList.lookup_isSome, h]
  rfl

theorem getNodeClient_events (config : Config) (net : Net) (node : Node)
    (remoteNode : gmajpb.Node) :
    (node.getNodeClient config net (some remoteNode)).events
      = if (node.cached remoteNode.Addr).isSome then []
        else [Event.dial remoteNode.Addr (config.DialOptions ++ node.dialOpts)] := by
  cases hc : node.cached remoteNode.Addr with
  | some cc0 => simp [Node.getNodeClient, hc]
  | none =>
    rcases hd : net.Dial remoteNode.Addr (config.DialOptions ++ node.dialOpts)
      with ⟨conn, _ | e⟩
    · cases hm : node.clientConns with
      | none => simp [Node.getNodeClient, hc, hd, hm]
      | some m => simp [Node.getNodeClient, hc, hd, hm]
    · simp [Node.getNodeClient, hc, hd]

theorem getNodeClient_no_request (config : Config) (net : Net) (node : Node)
    (remoteNode : Option gmajpb.Node) :
    (node.getNodeClient config net remoteNode).events.filter Event.isRequest = [] := by
  cases remoteNode with
  | none => simp [Node.getNodeClient]
  | some rn =>
    rw [getNodeClient_events]
    split <;> simp [Event.isRequest]

theorem run_of_client (config : Config) (net : Net) (node : Node)
    (remoteNode : Option gmajpb.Node) (rpc : Rpc) (client : gmajpb.NodeClient)
    (h : (node.getNodeClient config net remoteNode).out = .returned (some client, none)) :
    (node.run config net remoteNode rpc).events
      = (node.getNodeClient config net remoteNode).events
          ++ [Event.request client context.Background rpc.sameNameCall] := by
  cases rpc <;>
    simp only [Node.run, Exec.map, Node.GetPredecessorRPC, Node.GetSuccessorRPC,
      Node.SetPredecessorRPC, Node.SetSuccessorRPC, Node.NotifyRPC,
      Node.ClosestPrecedingFingerRPC, Node.FindSuccessorRPC, Node.GetRPC, Node.PutRPC,
      Node.TransferKeysRPC, Rpc.sameNameCall, h]
  all_goals repeat (first | rfl | split)

theorem run_of_error (config : Config) (net : Net) (node : Node)
    (remoteNode : Option gmajpb.Node) (rpc : Rpc) (client : Option gmajpb.NodeClient)
    (e : GoError)
    (h : (node.getNodeClient config net remoteNode).out = .returned (client, some e)) :
    (node.run config net remoteNode rpc).events
        = (node.getNodeClient config net remoteNode).events ∧
      ∃ reply, (node.run config net remoteNode rpc).out = .returned reply ∧
        reply.err = some e ∧ reply.isZero = true := by
  cases rpc <;>
    simp [Node.run, Exec.map, Node.GetPredecessorRPC, Node.GetSuccessorRPC,
      Node.SetPredecessorRPC, Node.SetSuccessorRPC, Node.NotifyRPC,
      Node.ClosestPrecedingFingerRPC, Node.FindSuccessorRPC, Node.GetRPC, Node.PutRPC,
      Node.TransferKeysRPC, h, Reply.err, Reply.isZero]

theorem getNodeClient_of_nil (config : Config) (net : Net) (node : Node)
    (remoteNode : gmajpb.Node) (hnil : node.clientConns = none) :
    node.getNodeClient config net (some remoteNode)
      = ⟨.returned (none, some
            (match (net.Dial remoteNode.Addr (config.DialOptions ++ node.dialOpts)).2 with
              | some e => e
              | none => errUninitialized)),
          node, [Event.dial remoteNode.Addr (config.DialOptions ++ node.dialOpts)]⟩ := by
  have hc : node.cached remoteNode.Addr = none := by simp [Node.cached, hnil]
  rcases hd : net.Dial remoteNode.Addr (config.DialOptions ++ node.dialOpts)
    with ⟨conn, _ | e⟩
  · simp [Node.getNodeClient, hc, hd, hnil, errUninitialized]
  · simp [Node.getNodeClient, hc, hd]

theorem run_events_cases (config : Config) (net : Net) (node : Node)
    (remoteNode : Option gmajpb.Node) (rpc : Rpc) :
    (node.run config net remoteNode rpc).events
        = (node.getNodeClient config net remoteNode).events ∨
      ∃ client, (node.getNodeClient config net remoteNode).out = .returned (some client, none) ∧
        (node.run config net remoteNode rpc).events
          = (node.getNodeClient config net remoteNode).events
              ++ [Event.request client context.Background rpc.sameNameCall] := by
  rcases hout : (node.getNodeClient config net remoteNode).out with ⟨_ | client, _ | e⟩ | _
  · left
    cases rpc <;>
      simp [Node.run, Exec.map, Node.GetPredecessorRPC, Node.GetSuccessorRPC,
        Node.SetPredecessorRPC, Node.SetSuccessorRPC, Node.NotifyRPC,
        Node.ClosestPrecedingFingerRPC, Node.FindSuccessorRPC, Node.GetRPC, Node.PutRPC,
        Node.TransferKeysRPC, hout]
  · left
    exact (run_of_error config net node remoteNode rpc none e hout).1
  · right
    exact ⟨client, rfl, run_of_client config net node remoteNode rpc client hout⟩
  · left
    exact (run_of_error config net node remoteNode rpc (some client) e hout).1
  · left
    cases rpc <;>
      simp [Node.run, Exec.map, Node.GetPredecessorRPC, Node.GetSuccessorRPC,
        Node.SetPredecessorRPC, Node.SetSuccessorRPC, Node.NotifyRPC,
        Node.ClosestPrecedingFingerRPC, Node.FindSuccessorRPC, Node.GetRPC, Node.PutRPC,
        Node.TransferKeysRPC, hout]

/-! ## Uninitialized nodes -/

/-- C4, as stated, fails: on a node whose connection storage is nil, when `grpc.Dial`
fails the call returns the error of the dial, which is not the error "must instantiate
node before using"; so do the facade methods (here `GetRPC`). -/
theorem uninitialized_node_dial_failure_counterexample :
    bareNode.clientConns = none ∧
      (bareNode.getNodeClient sampleConfig sampleNet (some (sampleRemote "down:1"))).out
        = .returned (none, some ⟨"connection refused"⟩) ∧
      (bareNode.GetRPC sampleConfig sampleNet (some (sampleRemote "down:1")) "k").out
        = .returned ("", some ⟨"connection refused"⟩) ∧
      (⟨"connection refused"⟩ : GoError) ≠ errors.New "must instantiate node before using" := by
  decide

/-- C4, amended: on a node whose connection storage is nil, `getNodeClient` and each of
the ten facade methods dial the address (once, with the composed options, and nothing
else is issued), then fail: they return no stub and no result, issue no request and leave
the storage nil. The error is "must instantiate node before using" when the dial
succeeded, and the error of the dial when it failed. -/
theorem uninitialized_node_fails (config : Config) (net : Net) (node : Node)
    (remoteNode : gmajpb.Node) (rpc : Rpc) (hnil : node.clientConns = none) :
    ∃ e : GoError,
      (match (net.Dial remoteNode.Addr (config.DialOptions ++ node.dialOpts)).2 with
        | some dialErr => e = dialErr
        | none => e = errors.New "must instantiate node before using") ∧
      (node.getNodeClient config net (some remoteNode)).out = .returned (none, some e) ∧
      (node.getNodeClient config net (some remoteNode)).node = node ∧
      (node.getNodeClient config net (some remoteNode)).events
        = [Event.dial remoteNode.Addr (config.DialOptions ++ node.dialOpts)] ∧
      (node.getNodeClient config net (some remoteNode)).events.filter Event.isDial
        = [Event.dial remoteNode.Addr (config.DialOptions ++ node.dialOpts)] ∧
      (node.getNodeClient config net (some remoteNode)).events.filter Event.isRequest = [] ∧
      (∃ reply, (node.run config net (some remoteNode) rpc).out = .returned reply ∧
        reply.err = some e ∧ reply.isZero = true) ∧
      (node.run config net (some remoteNode) rpc).node = node ∧
      (node.run config net (some remoteNode) rpc).node.clientConns = none ∧
      (node.run config net (some remoteNode) rpc).events
        = [Event.dial remoteNode.Addr (config.DialOptions ++ node.dialOpts)] ∧
      (node.run config net (some remoteNode) rpc).events.filter Event.isDial
        = [Event.dial remoteNode.Addr (config.DialOptions ++ node.dialOpts)] ∧
      (node.run config net (some remoteNode) rpc).events.filter Event.isRequest = [] := by
  have hg := getNodeClient_of_nil config net node remoteNode hnil
  have hout := congrArg Exec.out hg
  have hnode := congrArg Exec.node hg
  have hevents := congrArg Exec.events hg
  simp only at hout hnode hevents
  obtain ⟨hev, hreply⟩ := run_of_error config net node (some remoteNode) rpc none _ hout
  refine ⟨_, ?_, hout, hnode, hevents, ?_, getNodeClient_no_request _ _ _ _, hreply,
    ?_, ?_, ?_, ?_, ?_⟩
  · cases (net.Dial remoteNode.Addr (config.DialOptions ++ node.dialOpts)).2 <;>
      simp [errUninitialized]
  · rw [hevents]
    simp [Event.isDial]
  · rw [run_node, hnode]
  · rw [run_node, hnode, hnil]
  · rw [hev, hevents]
  · rw [hev, hevents]
    simp [Event.isDial]
  · rw [hev]
    exact getNodeClient_no_request _ _ _ _

theorem uninitialized_node_fails_witness :
    ∃ e : GoError,
      (match (sampleNet.Dial (sampleRemote "b:1").Addr
          (sampleConfig.DialOptions ++ bareNode.dialOpts)).2 with
        | some dialErr => e = dialErr
        | none => e = errors.New "must instantiate node before using") ∧
      (bareNode.getNodeClient sampleConfig sampleNet (some (sampleRemote "b:1"))).out
        = .returned (none, some e) ∧
      (bareNode.getNodeClient sampleConfig sampleNet (some (sampleRemote "b:1"))).node
        = bareNode ∧
      (bareNode.getNodeClient sampleConfig sampleNet (some (sampleRemote "b:1"))).events
        = [Event.dial (sampleRemote "b:1").Addr
            (sampleConfig.DialOptions ++ bareNode.dialOpts)] ∧
      (bareNode.getNodeClient sampleConfig sampleNet
        (some (sampleRemote "b:1"))).events.filter Event.isDial
        = [Event.dial (sampleRemote "b:1").Addr
            (sampleConfig.DialOptions ++ bareNode.dialOpts)] ∧
      (bareNode.getNodeClient sampleConfig sampleNet
        (some (sampleRemote "b:1"))).events.filter Event.isRequest = [] ∧
      (∃ reply, (bareNode.run sampleConfig sampleNet (some (sampleRemote "b:1"))
          (.PutRPC "k" "v")).out = .returned reply ∧
        reply.err = some e ∧ reply.isZero = true) ∧
      (bareNode.run sampleConfig sampleNet (some (sampleRemote "b:1")) (.PutRPC "k" "v")).node
        = bareNode ∧
      (bareNode.run sampleConfig sampleNet (some (sampleRemote "b:1"))
        (.PutRPC "k" "v")).node.clientConns = none ∧
      (bareNode.run sampleConfig sampleNet (some (sampleRemote "b:1"))
        (.PutRPC "k" "v")).events
        = [Event.dial (sampleRemote "b:1").Addr
            (sampleConfig.DialOptions ++ bareNode.dialOpts)] ∧
      (bareNode.run sampleConfig sampleNet (some (sampleRemote "b:1"))
        (.PutRPC "k" "v")).events.filter Event.isDial
        = [Event.dial (sampleRemote "b:1").Addr
            (sampleConfig.DialOptions ++ bareNode.dialOpts)] ∧
      (bareNode.run sampleConfig sampleNet (some (sampleRemote "b:1"))
        (.PutRPC "k" "v")).events.filter Event.isRequest = [] :=
  uninitialized_node_fails sampleConfig sampleNet bareNode (sampleRemote "b:1")
    (.PutRPC "k" "v") rfl

/-! ## The cache only grows -/

/-- C5, as stated, fails: two callers resolve the uncached address `"b:1"` concurrently
and both miss and dial. Caller 0 inserts its session 10; then the insertion of caller 1,
the last step of its call of `getNodeClient` (line 177), replaces that existing entry by
session 11. -/
theorem cache_entry_replaced_counterexample :
    (Conc.init sampleNode 2).node.clientConns.bind (fun m => m.lookup "b:1") = none ∧
      (Conc.run (fun t => (⟨10 + t⟩, none)) "b:1" [0, 1, 0, 1, 0]
          (Conc.init sampleNode 2)).node.clientConns.bind (fun m => m.lookup "b:1")
        = some ⟨gmajpb.NewNodeClient ⟨10⟩, ⟨10⟩⟩ ∧
      (Conc.run (fun t => (⟨10 + t⟩, none)) "b:1" [0, 1, 0, 1, 0]
          (Conc.init sampleNode 2)).pcs = [.done (some (gmajpb.NewNodeClient ⟨10⟩), none),
            .dialed ⟨11⟩] ∧
      (Conc.step (fun t => (⟨10 + t⟩, none)) "b:1"
          (Conc.run (fun t => (⟨10 + t⟩, none)) "b:1" [0, 1, 0, 1, 0]
            (Conc.init sampleNode 2)) 1).node.clientConns.bind (fun m => m.lookup "b:1")
        = some ⟨gmajpb.NewNodeClient ⟨11⟩, ⟨11⟩⟩ ∧
      (⟨gmajpb.NewNodeClient ⟨10⟩, ⟨10⟩⟩ : clientConn) ≠ ⟨gmajpb.NewNodeClient ⟨11⟩, ⟨11⟩⟩ := by
  decide

/-- C5, amended: a call of `getNodeClient` or of any of the ten facade methods that runs
with no other call interleaved, whatever the dial and the stubs answer, keeps every entry
the cache had before the call (same client, same session): the cache afterwards is the
one before, or the one before with one entry added in front for an address that had none.
When calls interleave, a step of a caller never removes an entry and never changes the
entry of an address other than the one being resolved; only the insertion of a caller
that has dialled replaces the entry of the resolved address, by that caller's session.
In both cases each address has at most one entry. -/
theorem cache_only_grows (config : Config) (net : Net) (node : Node)
    (remoteNode : Option gmajpb.Node) (rpc : Rpc) (m : ConnMap) (addr : String)
    (cc : clientConn)
    (alloc : node.clientConns = some m) (had : m.lookup addr = some cc) :
    (∃ m', (node.getNodeClient config net remoteNode).node.clientConns = some m' ∧
      m'.lookup addr = some cc ∧
      (m'.entries = m.entries ∨
        ∃ rn c, remoteNode = some rn ∧ m.lookup rn.Addr = none ∧
          m'.entries = ⟨rn.Addr, ⟨gmajpb.NewNodeClient c, c⟩⟩ :: m.entries) ∧
      m'.keys.count addr = 1 ∧ ∀ a, m'.keys.count a ≤ 1) ∧
    (node.run config net remoteNode rpc).node
      = (node.getNodeClient config net remoteNode).node ∧
    ∀ (dial : Nat → grpc.ClientConn × Option GoError) (target : String) (pcs : List Pc)
      (last : Option Nat) (t : Nat),
      ∃ m', (Conc.step dial target ⟨node, pcs, last⟩ t).node.clientConns = some m' ∧
        (m' = m ∨ ∃ conn, pcs[t]? = some (.dialed conn) ∧
          m' = m.insert target ⟨gmajpb.NewNodeClient conn, conn⟩) ∧
        (m'.lookup addr).isSome = true ∧
        (addr ≠ target → m'.lookup addr = some cc) ∧
        (∀ a, a ≠ target → m'.lookup a = m.lookup a) ∧
        m'.keys.count addr = 1 ∧ ∀ a, m'.keys.count a ≤ 1 := by
  refine ⟨?_, run_node _ _ _ _ _, ?_⟩
  · rcases getNodeClient_node_cases config net node remoteNode m alloc with h | ⟨rn, c, hrn, hmiss, h⟩
    · refine ⟨m, by rw [h, alloc], had, Or.inl rfl, count_key_of_lookup m addr cc had, ?_⟩
      exact fun a => List.nodup_iff_count_le_one.mp m.keys_nodup a
    · have hent : (m.insert rn.Addr ⟨gmajpb.NewNodeClient c, c⟩).entries
          = ⟨rn.Addr, ⟨gmajpb.NewNodeClient c, c⟩⟩ :: m.entries :=
        AList.insert_entries_of_neg (AList.lookup_eq_none.mp hmiss)
      have hl := lookup_of_entries_cons m _ rn.Addr addr _ cc hmiss had hent
      refine ⟨_, by rw [h], hl, Or.inr ⟨rn, c, hrn, hmiss, hent⟩,
        count_key_of_lookup _ addr cc hl, ?_⟩
      exact fun a => List.nodup_iff_count_le_one.mp (AList.keys_nodup _) a
  · intro dial target pcs last t
    rcases Conc.step_node_cases dial target ⟨node, pcs, last⟩ t m alloc with h | ⟨conn, hpc, h⟩
    · refine ⟨m, by rw [h]; exact alloc, Or.inl rfl, by rw [had]; rfl, fun _ => had,
        fun _ _ => rfl, count_key_of_lookup m addr cc had, ?_⟩
      exact fun a => List.nodup_iff_count_le_one.mp m.keys_nodup a
    · have hsome : ((m.insert target ⟨gmajpb.NewNodeClient conn, conn⟩).lookup addr).isSome
          = true := by
        by_cases e : addr = target
        · subst e
          rw [AList.lookup_insert]
          rfl
        · rw [AList.lookup_insert_ne e, had]
          rfl
      obtain ⟨cc', hcc'⟩ := Option.isSome_iff_exists.mp hsome
      refine ⟨_, by rw [h], Or.inr ⟨conn, hpc, rfl⟩, hsome, ?_, ?_,
        count_key_of_lookup _ addr cc' hcc', ?_⟩
      · intro hne
        rw [AList.lookup_insert_ne hne]
        exact had
      · intro a hne
        exact AList.lookup_insert_ne hne
      · exact fun a => List.nodup_iff_count_le_one.mp (AList.keys_nodup _) a

theorem cache_only_grows_witness :
    (∃ m', (twoEntryNode.getNodeClient sampleConfig sampleNet
        (some (sampleRemote "b:1"))).node.clientConns = some m' ∧
      m'.lookup "c:1" = some (sampleEntry 4) ∧
      (m'.entries
          = (AList.insert "a:1" (sampleEntry 3)
              (AList.insert "c:1" (sampleEntry 4) ∅) : ConnMap).entries ∨
        ∃ rn c, some (sampleRemote "b:1") = some rn ∧
          (AList.insert "a:1" (sampleEntry 3)
            (AList.insert "c:1" (sampleEntry 4) ∅) : ConnMap).lookup rn.Addr = none ∧
          m'.entries = ⟨rn.Addr, ⟨gmajpb.NewNodeClient c, c⟩⟩
            :: (AList.insert "a:1" (sampleEntry 3)
                (AList.insert "c:1" (sampleEntry 4) ∅) : ConnMap).entries) ∧
      m'.keys.count "c:1" = 1 ∧ ∀ a, m'.keys.count a ≤ 1) ∧
    (twoEntryNode.run sampleConfig sampleNet (some (sampleRemote "b:1")) (.NotifyRPC none)).node
      = (twoEntryNode.getNodeClient sampleConfig sampleNet (some (sampleRemote "b:1"))).node ∧
    ∀ (dial : Nat → grpc.ClientConn × Option GoError) (target : String) (pcs : List Pc)
      (last : Option Nat) (t : Nat),
      ∃ m', (Conc.step dial target ⟨twoEntryNode, pcs, last⟩ t).node.clientConns = some m' ∧
        (m' = (AList.insert "a:1" (sampleEntry 3) (AList.insert "c:1" (sampleEntry 4) ∅)) ∨
          ∃ conn, pcs[t]? = some (.dialed conn) ∧
            m' = (AList.insert "a:1" (sampleEntry 3)
              (AList.insert "c:1" (sampleEntry 4) ∅) : ConnMap).insert target
                ⟨gmajpb.NewNodeClient conn, conn⟩) ∧
        (m'.lookup "c:1").isSome = true ∧
        ("c:1" ≠ target → m'.lookup "c:1" = some (sampleEntry 4)) ∧
        (∀ a, a ≠ target →
          m'.lookup a = (AList.insert "a:1" (sampleEntry 3)
            (AList.insert "c:1" (sampleEntry 4) ∅) : ConnMap).lookup a) ∧
        m'.keys.count "c:1" = 1 ∧ ∀ a, m'.keys.count a ≤ 1 :=
  cache_only_grows sampleConfig sampleNet twoEntryNode (some (sampleRemote "b:1"))
    (.NotifyRPC none) (AList.insert "a:1" (sampleEntry 3) (AList.insert "c:1" (sampleEntry 4) ∅))
    "c:1" (sampleEntry 4) rfl (by decide)

/-! ## The facade -/

/-- C6: when `getNodeClient` succeeds with a stub, a facade method issues exactly one
request: to that stub, to the stub method of the same name, carrying exactly the
caller's arguments. When `getNodeClient` fails, the method issues no request and returns
the error of `getNodeClient` with a nil or empty result. -/
theorem facade_one_request (config : Config) (net : Net) (node : Node)
    (remoteNode : Option gmajpb.Node) (rpc : Rpc) :
    (∀ client,
      (node.getNodeClient config net remoteNode).out = .returned (some client, none) →
      (node.run config net remoteNode rpc).events
          = (node.getNodeClient config net remoteNode).events
              ++ [Event.request client context.Background rpc.sameNameCall] ∧
        (node.run config net remoteNode rpc).events.filter Event.isRequest
          = [Event.request client context.Background rpc.sameNameCall]) ∧
    (∀ client e,
      (node.getNodeClient config net remoteNode).out = .returned (client, some e) →
      (node.run config net remoteNode rpc).events.filter Event.isRequest = [] ∧
        ∃ reply, (node.run config net remoteNode rpc).out = .returned reply ∧
          reply.err = some e ∧ reply.isZero = true) := by
  constructor
  · intro client h
    have hev := run_of_client config net node remoteNode rpc client h
    refine ⟨hev, ?_⟩
    rw [hev, List.filter_append, getNodeClient_no_request]
    simp [Event.isRequest]
  · intro client e h
    obtain ⟨hev, hreply⟩ := run_of_error config net node remoteNode rpc client e h
    refine ⟨?_, hreply⟩
    rw [hev]
    exact getNodeClient_no_request _ _ _ _

theorem facade_one_request_witness :
    ((sampleNode.run sampleConfig sampleNet (some (sampleRemote "b:1"))
        (.TransferKeysRPC [4, 5] (some (sampleRemote "c:1")))).events
        = (sampleNode.getNodeClient sampleConfig sampleNet (some (sampleRemote "b:1"))).events
            ++ [Event.request (sampleClient 7) context.Background
                (Rpc.TransferKeysRPC [4, 5] (some (sampleRemote "c:1"))).sameNameCall] ∧
      (sampleNode.run sampleConfig sampleNet (some (sampleRemote "b:1"))
        (.TransferKeysRPC [4, 5] (some (sampleRemote "c:1")))).events.filter Event.isRequest
        = [Event.request (sampleClient 7) context.Background
            (Rpc.TransferKeysRPC [4, 5] (some (sampleRemote "c:1"))).sameNameCall]) ∧
    ((sampleNode.run sampleConfig sampleNet (some (sampleRemote "down:1"))
        (.PutRPC "k" "v")).events.filter Event.isRequest = [] ∧
      ∃ reply, (sampleNode.run sampleConfig sampleNet (some (sampleRemote "down:1"))
          (.PutRPC "k" "v")).out = .returned reply ∧
        reply.err = some ⟨"connection refused"⟩ ∧ reply.isZero = true) :=
  ⟨(facade_one_request sampleConfig sampleNet sampleNode (some (sampleRemote "b:1"))
      (.TransferKeysRPC [4, 5] (some (sampleRemote "c:1")))).1 (sampleClient 7) (by decide),
   (facade_one_request sampleConfig sampleNet sampleNode (some (sampleRemote "down:1"))
      (.PutRPC "k" "v")).2 none ⟨"connection refused"⟩ (by decide)⟩

/-- C7: once `getNodeClient` has produced a stub, each facade method returns exactly the
error its stub request returned and nothing in its place; the node-returning methods
return exactly the stub's response; `GetRPC` returns the value of the response with a nil
error when the stub's error is nil, and the empty string with the stub's error when it is
not. -/
theorem facade_passes_through (config : Config) (net : Net) (node : Node)
    (remoteNode : Option gmajpb.Node) (client : gmajpb.NodeClient)
    (newNode : Option gmajpb.Node) (id : List UInt8) (key val : String)
    (h : (node.getNodeClient config net remoteNode).out = .returned (some client, none)) :
    (node.GetPredecessorRPC config net remoteNode).out
        = .returned (net.GetPredecessor client context.Background mt) ∧
      (node.GetSuccessorRPC config net remoteNode).out
        = .returned (net.GetSuccessor client context.Background mt) ∧
      (node.ClosestPrecedingFingerRPC config net remoteNode id).out
        = .returned (net.ClosestPrecedingFinger client context.Background ⟨id⟩) ∧
      (node.FindSuccessorRPC config net remoteNode id).out
        = .returned (net.FindSuccessor client context.Background ⟨id⟩) ∧
      (node.SetPredecessorRPC config net remoteNode newNode).out
        = .returned (net.SetPredecessor client context.Background newNode).2 ∧
      (node.SetSuccessorRPC config net remoteNode newNode).out
        = .returned (net.SetSuccessor client context.Background newNode).2 ∧
      (node.NotifyRPC config net remoteNode newNode).out
        = .returned (net.Notify client context.Background newNode).2 ∧
      (node.PutRPC config net remoteNode key val).out
        = .returned (net.Put client context.Background ⟨key, val⟩).2 ∧
      (node.TransferKeysRPC config net remoteNode id newNode).out
        = .returned (net.TransferKeys client context.Background ⟨id, newNode⟩).2 ∧
      (∀ resp, net.Get client context.Background ⟨key⟩ = (some resp, none) →
        (node.GetRPC config net remoteNode key).out = .returned (resp.Val, none)) ∧
      (∀ resp err, net.Get client context.Background ⟨key⟩ = (resp, some err) →
        (node.GetRPC config net remoteNode key).out = .returned ("", some err)) := by
  refine ⟨?_, ?_, ?_, ?_, ?_, ?_, ?_, ?_, ?_, ?_, ?_⟩
  · simp [Node.GetPredecessorRPC, h]
  · simp [Node.GetSuccessorRPC, h]
  · simp [Node.ClosestPrecedingFingerRPC, h]
  · simp [Node.FindSuccessorRPC, h]
  · simp [Node.SetPredecessorRPC, h]
  · simp [Node.SetSuccessorRPC, h]
  · simp [Node.NotifyRPC, h]
  · simp [Node.PutRPC, h]
  · simp [Node.TransferKeysRPC, h]
  · intro resp hget
    simp [Node.GetRPC, h, hget]
  · intro resp err hget
    simp [Node.GetRPC, h, hget]

theorem facade_passes_through_witness :
    (sampleNode.GetPredecessorRPC sampleConfig sampleNet (some (sampleRemote "a:1"))).out
        = .returned (sampleNet.GetPredecessor (sampleClient 3) context.Background mt) ∧
      (sampleNode.GetSuccessorRPC sampleConfig sampleNet (some (sampleRemote "a:1"))).out
        = .returned (sampleNet.GetSuccessor (sampleClient 3) context.Background mt) ∧
      (sampleNode.ClosestPrecedingFingerRPC sampleConfig sampleNet
          (some (sampleRemote "a:1")) [4]).out
        = .returned (sampleNet.ClosestPrecedingFinger (sampleClient 3) context.Background ⟨[4]⟩) ∧
      (sampleNode.FindSuccessorRPC sampleConfig sampleNet (some (sampleRemote "a:1")) [4]).out
        = .returned (sampleNet.FindSuccessor (sampleClient 3) context.Background ⟨[4]⟩) ∧
      (sampleNode.SetPredecessorRPC sampleConfig sampleNet (some (sampleRemote "a:1")) none).out
        = .returned (sampleNet.SetPredecessor (sampleClient 3) context.Background none).2 ∧
      (sampleNode.SetSuccessorRPC sampleConfig sampleNet (some (sampleRemote "a:1")) none).out
        = .returned (sampleNet.SetSuccessor (sampleClient 3) context.Background none).2 ∧
      (sampleNode.NotifyRPC sampleConfig sampleNet (some (sampleRemote "a:1")) none).out
        = .returned (sampleNet.Notify (sampleClient 3) context.Background none).2 ∧
      (sampleNode.PutRPC sampleConfig sampleNet (some (sampleRemote "a:1")) "missing" "v").out
        = .returned (sampleNet.Put (sampleClient 3) context.Background ⟨"missing", "v"⟩).2 ∧
      (sampleNode.TransferKeysRPC sampleConfig sampleNet (some (sampleRemote "a:1")) [4] none).out
        = .returned (sampleNet.TransferKeys (sampleClient 3) context.Background ⟨[4], none⟩).2 ∧
      (∀ resp, sampleNet.Get (sampleClient 3) context.Background ⟨"missing"⟩ = (some resp, none) →
        (sampleNode.GetRPC sampleConfig sampleNet (some (sampleRemote "a:1")) "missing").out
          = .returned (resp.Val, none)) ∧
      (∀ resp err, sampleNet.Get (sampleClient 3) context.Background ⟨"missing"⟩ = (resp, some err) →
        (sampleNode.GetRPC sampleConfig sampleNet (some (sampleRemote "a:1")) "missing").out
          = .returned ("", some err)) :=
  facade_passes_through sampleConfig sampleNet sampleNode (some (sampleRemote "a:1"))
    (sampleClient 3) none [4] "missing" "v" (by decide)

/-! ## Deadlines -/

/-- C8, as stated, fails: the request `GetPredecessorRPC` hands to the stub carries a
context with no deadline. -/
theorem request_deadline_counterexample :
    (sampleNode.GetPredecessorRPC sampleConfig sampleNet (some (sampleRemote "a:1"))).events
        = [Event.request (sampleClient 3) { deadline := none } (Call.GetPredecessor mt)] ∧
      ¬ ∀ client ctx call,
        Event.request client ctx call
            ∈ (sampleNode.GetPredecessorRPC sampleConfig sampleNet
                (some (sampleRemote "a:1"))).events →
          ctx.deadline.isSome = true := by
  refine ⟨by decide, fun hall => ?_⟩
  have := hall (sampleClient 3) { deadline := none } (Call.GetPredecessor mt) (by decide)
  exact absurd this (by decide)

/-- C8, amended: for each of the ten facade methods, the context passed with the request
to the stub is `context.Background()`, which has no deadline set. -/
theorem request_context_is_background (config : Config) (net : Net) (node : Node)
    (remoteNode : Option gmajpb.Node) (rpc : Rpc) (client : gmajpb.NodeClient)
    (ctx : context.Context) (call : Call)
    (sent : Event.request client ctx call ∈ (node.run config net remoteNode rpc).events) :
    ctx = context.Background ∧ ctx.deadline = none := by
  have hno : Event.request client ctx call
      ∉ (node.getNodeClient config net remoteNode).events := by
    intro hmem
    have hf : Event.request client ctx call
        ∈ (node.getNodeClient config net remoteNode).events.filter Event.isRequest :=
      List.mem_filter.mpr ⟨hmem, rfl⟩
    rw [getNodeClient_no_request] at hf
    exact List.not_mem_nil _ hf
  rcases run_events_cases config net node remoteNode rpc with hev | ⟨c, _, hev⟩
  · rw [hev] at sent
    exact absurd sent hno
  · rw [hev, List.mem_append] at sent
    rcases sent with hmem | hmem
    · exact absurd hmem hno
    · simp only [List.mem_singleton, Event.request.injEq] at hmem
      obtain ⟨_, rfl, _⟩ := hmem
      exact ⟨rfl, rfl⟩

theorem request_context_is_background_witness :
    Event.request (sampleClient 3) context.Background (Call.Get ⟨"k"⟩)
        ∈ (sampleNode.run sampleConfig sampleNet (some (sampleRemote "a:1"))
            (.GetRPC "k")).events ∧
      (context.Background = context.Background ∧ context.Background.deadline = none) :=
  ⟨by decide,
   request_context_is_background sampleConfig sampleNet sampleNode
    (some (sampleRemote "a:1")) (.GetRPC "k") (sampleClient 3) context.Background
    (Call.Get ⟨"k"⟩) (by decide)⟩

/-! ## Dial options -/

/-- C9: a call of `getNodeClient` dials exactly when the address has no cache entry, and
then once: the address dialled is `remoteNode.Addr`, and the option list is the
process-wide `config.DialOptions`, in order, followed by the node's own `dialOpts`, in
order. Its length is the sum of the two lengths, and with no per-node options it is
`config.DialOptions`. -/
theorem dial_options_default_then_override (config : Config) (net : Net) (node : Node)
    (remoteNode : gmajpb.Node) :
    (node.getNodeClient config net (some remoteNode)).events
        = (if (node.cached remoteNode.Addr).isSome then []
           else [Event.dial remoteNode.Addr (config.DialOptions ++ node.dialOpts)]) ∧
      (config.DialOptions ++ node.dialOpts).length
        = config.DialOptions.length + node.dialOpts.length ∧
      (config.DialOptions ++ node.dialOpts).take config.DialOptions.length
        = config.DialOptions ∧
      (config.DialOptions ++ node.dialOpts).drop config.DialOptions.length = node.dialOpts ∧
      (Node.getNodeClient config net { node with dialOpts := [] } (some remoteNode)).events
        = (if (node.cached remoteNode.Addr).isSome then []
           else [Event.dial remoteNode.Addr config.DialOptions]) := by
  refine ⟨getNodeClient_events _ _ _ _, List.length_append _ _, ?_, ?_, ?_⟩
  · simp
  · simp
  · rw [getNodeClient_events]
    simp [Node.cached]

/-! ## Concurrent resolution -/

namespace Conc

theorem step_length (dial : Nat → grpc.ClientConn × Option GoError) (addr : String)
    (s : State) (t : Nat) : (step dial addr s t).pcs.length = s.pcs.length := by
  unfold step
  repeat (first | rfl | simp only [List.length_set] | split)

theorem step_pcs_of_ne (dial : Nat → grpc.ClientConn × Option GoError) (addr : String)
    (s : State) (t u : Nat) (hne : t ≠ u) : (step dial addr s t).pcs[u]? = s.pcs[u]? := by
  unfold step
  repeat (first | rfl | simp only [List.getElem?_set_ne hne] | split)

theorem step_rank (dial : Nat → grpc.ClientConn × Option GoError) (addr : String)
    (s : State) (t : Nat) (pc : Pc) (h : s.pcs[t]? = some pc) :
    ∃ pc', (step dial addr s t).pcs[t]? = some pc' ∧ min 3 (pc.rank + 1) ≤ pc'.rank := by
  have hlt : t < s.pcs.length := (List.getElem?_eq_some_iff.mp h).1
  unfold step
  rw [h]
  cases pc with
  | start =>
    dsimp only
    split
    · exact ⟨_, List.getElem?_set_self hlt, by simp [Pc.rank]⟩
    · exact ⟨_, List.getElem?_set_self hlt, by simp [Pc.rank]⟩
  | missed =>
    dsimp only
    split
    · exact ⟨_, List.getElem?_set_self hlt, by simp [Pc.rank]⟩
    · exact ⟨_, List.getElem?_set_self hlt, by simp [Pc.rank]⟩
  | dialed conn =>
    dsimp only
    split
    · exact ⟨_, List.getElem?_set_self hlt, by simp [Pc.rank]⟩
    · exact ⟨_, List.getElem?_set_self hlt, by simp [Pc.rank]⟩
  | done ret => exact ⟨_, h, by simp [Pc.rank]⟩

theorem run_rank (dial : Nat → grpc.ClientConn × Option GoError) (addr : String)
    (sched : List Nat) (t : Nat) :
    ∀ (s : State) (pc : Pc), s.pcs[t]? = some pc →
      ∃ pc', (run dial addr sched s).pcs[t]? = some pc' ∧
        min 3 (pc.rank + sched.count t) ≤ pc'.rank := by
  induction sched with
  | nil =>
    intro s pc h
    exact ⟨pc, h, by simp⟩
  | cons u rest ih =>
    intro s pc h
    by_cases hu : u = t
    · subst hu
      obtain ⟨pc1, h1, hr1⟩ := step_rank dial addr s u pc h
      obtain ⟨pc2, h2, hr2⟩ := ih (step dial addr s u) pc1 h1
      refine ⟨pc2, by simpa [run] using h2, ?_⟩
      simp only [List.count_cons_self]
      omega
    · have h1 : (step dial addr s u).pcs[t]? = some pc := by
        rw [step_pcs_of_ne dial addr s u t hu]
        exact h
      obtain ⟨pc2, h2, hr2⟩ := ih (step dial addr s u) pc h1
      refine ⟨pc2, by simpa [run] using h2, ?_⟩
      rw [List.count_cons_of_ne (Ne.symm hu)]
      exact hr2

theorem pcOk_set (dial : Nat → grpc.ClientConn × Option GoError) (last : Option Nat)
    (pcs : List Pc) (t : Nat) (x : Pc)
    (hall : ∀ (u : Nat) (pc : Pc), pcs[u]? = some pc → PcOk dial last u pc)
    (hx : PcOk dial last t x) :
    ∀ (u : Nat) (pc : Pc), (pcs.set t x)[u]? = some pc → PcOk dial last u pc := by
  intro u pc h
  by_cases e : t = u
  · subst e
    have hlt : t < pcs.length := by
      have := (List.getElem?_eq_some_iff.mp h).1
      simpa using this
    rw [List.getElem?_set_self hlt] at h
    cases h
    exact hx
  · rw [List.getElem?_set_ne e] at h
    exact hall u pc h

theorem pcOk_of_insert (dial : Nat → grpc.ClientConn × Option GoError) (last : Option Nat)
    (t u : Nat) (pc : Pc) (h : PcOk dial last u pc) : PcOk dial (some t) u pc := by
  cases pc with
  | start => trivial
  | missed => trivial
  | dialed conn => exact h
  | done ret => exact ⟨h.1, rfl⟩

theorem inv_init (dial : Nat → grpc.ClientConn × Option GoError) (addr : String)
    (node : Node) (m : ConnMap) (n : Nat)
    (alloc : node.clientConns = some m) (miss : m.lookup addr = none) :
    Inv dial addr m n (init node n) := by
  refine ⟨by simp [init], ⟨m, alloc, fun _ _ => rfl, by simp [init, miss]⟩,
    by simp [init], ?_⟩
  intro t pc h
  simp only [init, List.getElem?_replicate] at h
  split at h
  · cases h
    trivial
  · cases h

theorem inv_step (dial : Nat → grpc.ClientConn × Option GoError) (addr : String)
    (m : ConnMap) (n : Nat) (s : State) (t : Nat)
    (dialOk : ∀ u, u < n → (dial u).2 = none) (hinv : Inv dial addr m n s) :
    Inv dial addr m n (step dial addr s t) := by
  obtain ⟨hlen, ⟨m', hm', hother, haddr⟩, hlast, hpcs⟩ := hinv
  cases hpc : s.pcs[t]? with
  | none =>
    have hs : step dial addr s t = s := by simp [step, hpc]
    rw [hs]
    exact ⟨hlen, ⟨m', hm', hother, haddr⟩, hlast, hpcs⟩
  | some pc =>
    have hlt : t < n := by
      rw [← hlen]
      exact (List.getElem?_eq_some_iff.mp hpc).1
    have hcached : s.node.cached addr = m'.lookup addr := by simp [Node.cached, hm']
    cases pc with
    | start =>
      cases hl : s.lastInsert with
      | none =>
        have hmiss : s.node.cached addr = none := by rw [hcached, haddr, hl]; rfl
        have hs : step dial addr s t = { s with pcs := s.pcs.set t .missed } := by
          simp [step, hpc, hmiss]
        rw [hs]
        refine ⟨by simpa using hlen, ⟨m', hm', hother, haddr⟩, hlast, ?_⟩
        exact pcOk_set dial _ _ _ _ hpcs trivial
      | some u =>
        have hhit : s.node.cached addr
            = some ⟨gmajpb.NewNodeClient (dial u).1, (dial u).1⟩ := by
          rw [hcached, haddr, hl]; rfl
        have hs : step dial addr s t
            = { s with
                pcs := s.pcs.set t (.done (some (gmajpb.NewNodeClient (dial u).1), none)) } := by
          simp [step, hpc, hhit]
        rw [hs]
        refine ⟨by simpa using hlen, ⟨m', hm', hother, haddr⟩, hlast, ?_⟩
        exact pcOk_set dial _ _ _ _ hpcs ⟨⟨_, rfl⟩, by simp [hl]⟩
    | missed =>
      have hd : dial t = ((dial t).1, none) := by
        have := dialOk t hlt
        rcases hdt : dial t with ⟨c, e⟩
        rw [hdt] at this
        simp only at this
        rw [this]
      have hs : step dial addr s t
          = { s with pcs := s.pcs.set t (.dialed (dial t).1) } := by
        simp only [step, hpc]
        rw [hd]
      rw [hs]
      refine ⟨by simpa using hlen, ⟨m', hm', hother, haddr⟩, hlast, ?_⟩
      exact pcOk_set dial _ _ _ _ hpcs rfl
    | dialed conn =>
      have hconn : conn = (dial t).1 := hpcs t _ hpc
      have hs : step dial addr s t
          = { node := { s.node with
                clientConns := some (m'.insert addr ⟨gmajpb.NewNodeClient conn, conn⟩) },
              pcs := s.pcs.set t (.done (some (gmajpb.NewNodeClient conn), none)),
              lastInsert := some t } := by
        simp [step, hpc, hm']
      rw [hs]
      refine ⟨by simpa using hlen, ⟨_, rfl, ?_, ?_⟩, ?_, ?_⟩
      · intro a ha
        rw [AList.lookup_insert_ne ha]
        exact hother a ha
      · rw [AList.lookup_insert, hconn]
        rfl
      · intro u hu
        cases hu
        exact hlt
      · exact pcOk_set dial _ _ _ _
          (fun u pc h => pcOk_of_insert dial _ t u pc (hpcs u pc h)) ⟨⟨_, rfl⟩, rfl⟩
    | done ret =>
      have hs : step dial addr s t = s := by simp [step, hpc]
      rw [hs]
      exact ⟨hlen, ⟨m', hm', hother, haddr⟩, hlast, hpcs⟩

theorem inv_run (dial : Nat → grpc.ClientConn × Option GoError) (addr : String)
    (m : ConnMap) (n : Nat) (dialOk : ∀ u, u < n → (dial u).2 = none) (sched : List Nat) :
    ∀ s : State, Inv dial addr m n s → Inv dial addr m n (run dial addr sched s) := by
  induction sched with
  | nil =>
    intro s h
    exact h
  | cons t rest ih =>
    intro s h
    exact ih _ (inv_step dial addr m n s t dialOk h)

/-- The three steps of one caller running alone are the method `getNodeClient`: same
returned pair, same node afterwards. -/
theorem run_alone_eq_getNodeClient (config : Config) (net : Net) (node : Node)
    (remoteNode : gmajpb.Node) :
    ∃ ret, (node.getNodeClient config net (some remoteNode)).out = .returned ret ∧
      (run (fun _ => net.Dial remoteNode.Addr (config.DialOptions ++ node.dialOpts))
        remoteNode.Addr [0, 0, 0] (init node 1)).pcs = [.done ret] ∧
      (run (fun _ => net.Dial remoteNode.Addr (config.DialOptions ++ node.dialOpts))
        remoteNode.Addr [0, 0, 0] (init node 1)).node
        = (node.getNodeClient config net (some remoteNode)).node := by
  cases hc : node.cached remoteNode.Addr with
  | some cc => simp [Node.getNodeClient, run, step, init, hc]
  | none =>
    rcases hd : net.Dial remoteNode.Addr (config.DialOptions ++ node.dialOpts)
      with ⟨conn, _ | e⟩
    · cases hm : node.clientConns with
      | none => simp [Node.getNodeClient, run, step, init, hc, hd, hm]
      | some m => simp [Node.getNodeClient, run, step, init, hc, hd, hm]
    · simp [Node.getNodeClient, run, step, init, hc, hd]

/-- C10: callers `0 .. n-1` (at least one) resolve concurrently an address that an
initialized node has not cached, every dial succeeding. After every schedule of their
atomic steps that gives each caller its three steps, every caller has returned a stub with
a nil error, and the cache holds exactly one entry for the address, the session of the
last caller that inserted; the entries of the other addresses are as before. -/
theorem concurrent_resolution (dial : Nat → grpc.ClientConn × Option GoError)
    (addr : String) (node : Node) (m : ConnMap) (n : Nat) (sched : List Nat)
    (alloc : node.clientConns = some m) (miss : m.lookup addr = none)
    (callers : 0 < n) (dialOk : ∀ t, t < n → (dial t).2 = none)
    (complete : ∀ t, t < n → 3 ≤ sched.count t) :
    (∀ t, t < n →
      ∃ c, (run dial addr sched (init node n)).pcs[t]? = some (.done (some c, none))) ∧
    ∃ t m', t < n ∧ (run dial addr sched (init node n)).lastInsert = some t ∧
      (run dial addr sched (init node n)).node.clientConns = some m' ∧
      m'.lookup addr = some ⟨gmajpb.NewNodeClient (dial t).1, (dial t).1⟩ ∧
      m'.keys.count addr = 1 ∧
      ∀ a, a ≠ addr → m'.lookup a = m.lookup a := by
  obtain ⟨_, ⟨m', hm', hother, haddr⟩, hlast, hpcs⟩ :=
    inv_run dial addr m n dialOk sched _ (inv_init dial addr node m n alloc miss)
  have hdone : ∀ t, t < n →
      ∃ c, (run dial addr sched (init node n)).pcs[t]? = some (.done (some c, none)) ∧
        (run dial addr sched (init node n)).lastInsert.isSome = true := by
    intro t ht
    have h0 : (init node n).pcs[t]? = some .start := by
      simp [init, List.getElem?_replicate, ht]
    obtain ⟨pc, hpc, hrank⟩ := run_rank dial addr sched t _ _ h0
    have h3 := complete t ht
    have hok := hpcs t pc hpc
    cases pc with
    | start => simp [Pc.rank] at hrank; omega
    | missed => simp [Pc.rank] at hrank; omega
    | dialed conn => simp [Pc.rank] at hrank; omega
    | done ret =>
      obtain ⟨⟨c, rfl⟩, hsome⟩ := hok
      exact ⟨c, hpc, hsome⟩
  refine ⟨fun t ht => (hdone t ht).imp fun c hc => hc.1, ?_⟩
  obtain ⟨_, _, hsome⟩ := hdone 0 callers
  obtain ⟨t, ht⟩ := Option.isSome_iff_exists.mp hsome
  rw [ht] at haddr
  refine ⟨t, m', hlast t ht, ht, hm', haddr, ?_, hother⟩
  apply List.count_eq_one_of_mem m'.keys_nodup
  rw [← AList.mem_keys, ← AList.lookup_isSome, haddr]
  rfl

theorem concurrent_resolution_witness :
    (∀ t, t < 2 →
      ∃ c, (run (fun t => (⟨10 + t⟩, none)) "b:1" [0, 1, 0, 1, 1, 0]
          (init sampleNode 2)).pcs[t]? = some (.done (some c, none))) ∧
    ∃ t m', t < 2 ∧
      (run (fun t => (⟨10 + t⟩, none)) "b:1" [0, 1, 0, 1, 1, 0]
        (init sampleNode 2)).lastInsert = some t ∧
      (run (fun t => (⟨10 + t⟩, none)) "b:1" [0, 1, 0, 1, 1, 0]
        (init sampleNode 2)).node.clientConns = some m' ∧
      m'.lookup "b:1" = some ⟨gmajpb.NewNodeClient ⟨10 + t⟩, ⟨10 + t⟩⟩ ∧
      m'.keys.count "b:1" = 1 ∧
      ∀ a, a ≠ "b:1" → m'.lookup a = (AList.insert "a:1" (sampleEntry 3) ∅ : ConnMap).lookup a :=
  concurrent_resolution (fun t => (⟨10 + t⟩, none)) "b:1" sampleNode
    (AList.insert "a:1" (sampleEntry 3) ∅) 2 [0, 1, 0, 1, 1, 0] rfl (by decide) (by decide)
    (fun _ _ => rfl) (by decide)

end Conc

end gmaj
